import Mathlib

/-
Verification of the offline-first sales recording and synchronization
subsystem of the maish-sales-app repository.

Modelling conventions (shallow embedding of the JavaScript/TypeScript source):
* Timestamps are milliseconds since the epoch, as produced by `Date.now()` and
  `new Date(x).getTime()`; the ISO `created_at` strings of the source order
  exactly as their numeric timestamps, so both fields are modelled by one `Nat`.
* Decimal currency amounts (results of `parseFloat`) are modelled as exact
  rationals; `Math.round` is round-half-toward-positive-infinity.
* The IndexedDB object store `sales` (keyPath `id`) is modelled as a list of
  records kept in ascending key order, which is the order `getAll` returns.
* localStorage values are modelled as already-parsed lists; a raw read that can
  fail is modelled as an `Except` value supplied by the environment.
-/

namespace MaishSales

/-- JavaScript `Math.round`: round half toward positive infinity. -/
def jsRound (q : ℚ) : ℤ := ⌊q + 1 / 2⌋

/-- A sale record as built by `saveSaleLocally` in the IndexedDB revision of
`services/api.js` (src/unnamed/part_012). -/
structure Sale where
  id : Nat
  username : String
  item_description : String
  amount_cents : ℤ
  commission_cents : ℤ
  created_at : Nat
  photo_path : Option String
  status : String
deriving DecidableEq, Repr

/-- The record constructed by `saveSaleLocally` (part_012 lines 84-94):
`id = Date.now()`, `amount_cents = Math.round(parseFloat(amount) * 100)`,
`commission_cents = Math.round(parseFloat(amount) * 100 * 0.02)`,
`created_at = new Date().toISOString()` (same instant as `id`). -/
def mkNewSale (username item : String) (amount : ℚ) (photo : Option String)
    (now : Nat) : Sale :=
  { id := now
    username := username
    item_description := item
    amount_cents := jsRound (amount * 100)
    commission_cents := jsRound (amount * 100 * (2 / 100))
    created_at := now
    photo_path := photo
    status := "completed" }

/-- `store.put` on the IndexedDB `sales` store (keyPath `id`): insert in key
order, replacing any existing record with the same key. -/
def putDB (s : Sale) : List Sale → List Sale
  | [] => [s]
  | r :: rest =>
    if s.id < r.id then s :: r :: rest
    else if s.id = r.id then s :: rest
    else r :: putDB s rest

/-- `saveSaleToDB` (part_012 lines 28-37): a single `put` in a readwrite
transaction. -/
def saveSaleToDB (s : Sale) (db : List Sale) : List Sale := putDB s db

/-- `saveSaleLocally` (part_012 lines 76-102): build the record and `put` it
into the IndexedDB store. Returns the new record and the updated store. -/
def saveSaleLocally (username item : String) (amount : ℚ) (photo : Option String)
    (now : Nat) (db : List Sale) : Sale × List Sale :=
  let s := mkNewSale username item amount photo now
  (s, saveSaleToDB s db)

/-- `getSalesFromDB` (part_012 lines 39-52): `getAll` then filter by
`sale.username === username`, in store (key) order, with no sorting. -/
def getSalesFromDB (username : String) (db : List Sale) : List Sale :=
  db.filter (fun r => r.username == username)

/-- `getSales` (part_012 lines 274-277): returns `getSalesFromDB username`. -/
def getSales (username : String) (db : List Sale) : List Sale :=
  getSalesFromDB username db

/-- C1: a sale accepted by the recording operation with a valid amount (a
positive whole number `k` of currency minor units, i.e. amount `k / 100`)
is stored with `commission_cents = round(amount_cents * 0.02)`; the record
is persisted in the store; and amount_cents 250000 yields commission 5000.
The fields of a stored record are never mutated by any other operation, so
the relationship holds for every persisted record at all times. -/
theorem saveSaleLocally_commission_invariant (k : ℕ) (hk : 0 < k)
    (username item : String) (photo : Option String) (now : Nat) (db : List Sale) :
    ((saveSaleLocally username item ((k : ℚ) / 100) photo now db).1.amount_cents = (k : ℤ))
      ∧ ((saveSaleLocally username item ((k : ℚ) / 100) photo now db).1.commission_cents
          = jsRound (((saveSaleLocally username item ((k : ℚ) / 100) photo now db).1.amount_cents : ℚ) * (2 / 100)))
      ∧ ((saveSaleLocally username item ((k : ℚ) / 100) photo now db).1
          ∈ (saveSaleLocally username item ((k : ℚ) / 100) photo now db).2)
      ∧ (k = 250000 →
          (saveSaleLocally username item ((k : ℚ) / 100) photo now db).1.commission_cents = 5000) := by
  have hamt : ((k : ℚ) / 100 * 100) = (k : ℚ) := by
    field_simp
  have hfloor : jsRound ((k : ℚ)) = (k : ℤ) := by
    unfold jsRound
    rw [Int.floor_nat_add]
    norm_num
  have hmem : ∀ (s : Sale) (l : List Sale), s ∈ putDB s l := by
    intro s l
    induction l with
    | nil => simp [putDB]
    | cons r rest ih =>
      by_cases h1 : s.id < r.id
      · simp [putDB, h1]
      · by_cases h2 : s.id = r.id
        · simp [putDB, h1, h2]
        · simp [putDB, h1, h2]
          right
          exact ih
  refine ⟨?_, ?_, ?_, ?_⟩
  · show jsRound ((k : ℚ) / 100 * 100) = (k : ℤ)
    rw [hamt, hfloor]
  · show jsRound ((k : ℚ) / 100 * 100 * (2 / 100))
        = jsRound ((jsRound ((k : ℚ) / 100 * 100) : ℚ) * (2 / 100))
    rw [hamt, hfloor]
    push_cast
    rfl
  · exact hmem _ db
  · intro hke
    subst hke
    show jsRound ((250000 : ℚ) / 100 * 100 * (2 / 100)) = 5000
    norm_num [jsRound]

/-- Witness for C1 at the example given in the spec: amount 2500.00 in minor units
k = 250000, owner alice, item Blue Dress, empty store. -/
theorem saveSaleLocally_commission_invariant_witness :
    (0 < 250000)
      ∧ (((saveSaleLocally "alice" "Blue Dress" ((250000 : ℚ) / 100) none 7 []).1.amount_cents = ((250000 : ℕ) : ℤ))
          ∧ ((saveSaleLocally "alice" "Blue Dress" ((250000 : ℚ) / 100) none 7 []).1.commission_cents
              = jsRound (((saveSaleLocally "alice" "Blue Dress" ((250000 : ℚ) / 100) none 7 []).1.amount_cents : ℚ) * (2 / 100)))
          ∧ ((saveSaleLocally "alice" "Blue Dress" ((250000 : ℚ) / 100) none 7 []).1
              ∈ (saveSaleLocally "alice" "Blue Dress" ((250000 : ℚ) / 100) none 7 []).2)
          ∧ ((250000 : ℕ) = 250000 →
              (saveSaleLocally "alice" "Blue Dress" ((250000 : ℚ) / 100) none 7 []).1.commission_cents = 5000)) :=
  ⟨by decide, by
    have h := saveSaleLocally_commission_invariant 250000 (by decide) "alice" "Blue Dress" none 7 []
    exact_mod_cast h⟩

/-- `cleanupOldSales` (part_012 lines 114-131): read the localStorage value
under key `maish_sales_data_<username>`, keep the sales with
`new Date(created_at).getTime() > Date.now() - 48 * 60 * 60 * 1000`, and
write the filtered list back to the same localStorage key. The comparison
is JavaScript number arithmetic, modelled over `Int`. -/
def cleanupOldSales (now : Nat) (ls : List Sale) : List Sale :=
  let cutoffTime : ℤ := (now : ℤ) - 48 * 60 * 60 * 1000
  ls.filter (fun s => decide (cutoffTime < (s.created_at : ℤ)))

/-- The two client-side stores of the part_012 revision, for one user:
`idb` is the IndexedDB `sales` object store (written by `saveSaleLocally`,
read by `getSales`), `ls` is the localStorage value under the per-user
`maish_sales_data_<username>` key (read and written by `cleanupOldSales`). -/
structure AppState where
  idb : List Sale
  ls : List Sale
deriving DecidableEq, Repr

/-- The retention sweep as Dashboard.tsx runs it (lines 53-67): it invokes
`cleanupOldSales(user.username)`, which rewrites only the localStorage
entry; the IndexedDB store is untouched. -/
def dashboardCleanupTick (now : Nat) (st : AppState) : AppState :=
  { st with ls := cleanupOldSales now st.ls }

/-- `listSales` as displayed by the Dashboard: `loadSales` calls
`getSales(user.username)`, which reads the IndexedDB store. -/
def listSales (username : String) (st : AppState) : List Sale :=
  getSales username st.idb

/-- A sale persisted by `saveSaleLocally` at time 0 (creation instant of the
retention counterexample). -/
def oldSale : Sale :=
  { id := 0
    username := "alice"
    item_description := "Old item"
    amount_cents := 100
    commission_cents := 2
    created_at := 0
    photo_path := none
    status := "completed" }

/-- C2 fails on the code: a record 49 hours old (created at 0, sweeper run at
49 h = 176400000 ms) is still returned by `listSales` after the Retention
Sweeper runs, because `cleanupOldSales` rewrites only the localStorage key
`maish_sales_data_<username>`, which `saveSaleLocally` never writes, while
`getSales` reads the IndexedDB store that actually holds the record. -/
theorem retention_sweep_misses_persisted_record :
    ((176400000 : ℤ) - (oldSale.created_at : ℤ) > 48 * 60 * 60 * 1000)
      ∧ oldSale ∈ listSales "alice"
          (dashboardCleanupTick 176400000 { idb := [oldSale], ls := [] }) := by
  constructor
  · decide
  · simp [listSales, dashboardCleanupTick, getSales, getSalesFromDB, oldSale]

/-- One iteration step of the `syncLocalSalesToBackend` loop
(src/src/services/api.js lines 85-104): each sale is uploaded via
`createSale`; a failure is caught and the loop continues with the next sale.
`sink s = true` models a successful `createSale`, `false` a rejection.
Returns the list of sales that reached the backend, in order. -/
def syncLoop (sink : Sale → Bool) : List Sale → List Sale
  | [] => []
  | s :: rest => if sink s then s :: syncLoop sink rest else syncLoop sink rest

/-- `syncLocalSalesToBackend` (src/src/services/api.js lines 78-114): read the
local queue; if empty, return at once; otherwise run the loop and then
unconditionally `localStorage.removeItem(SALES_STORAGE_KEY)`. Returns
(sales that reached the backend, final local queue). -/
def syncLocalSalesToBackend (sink : Sale → Bool) (ls : List Sale) :
    List Sale × List Sale :=
  if ls.isEmpty then ([], ls)
  else (syncLoop sink ls, [])

/-- C3 fails on the code of `syncLocalSalesToBackend`: with a queue holding one
sale whose upload is rejected, after the pass the sale has not reached the
backend and is also gone from local storage — the pass removed an unsynced
record, contradicting the claim (and the comment in the function that storage
is cleared after successful sync). -/
theorem syncLocalSalesToBackend_drops_failed_record :
    ((syncLocalSalesToBackend (fun _ => false) [oldSale]).1 = [])
      ∧ ((syncLocalSalesToBackend (fun _ => false) [oldSale]).2 = []) := by
  decide

/-- An offline-queued sale as stored by `useOfflineSync.ts` under the
localStorage key `maish_offline_sales` (lines 5-13): `id` is a
`crypto.randomUUID()` string, `receipt_file` an optional attached file
(modelled by its name). -/
structure OfflineSale where
  id : String
  user_id : String
  item_name : String
  amount : ℚ
  commission : ℚ
  receipt_file : Option String
  created_at : Nat
deriving DecidableEq, Repr

/-- The row inserted into the remote `sales` table by `syncOfflineSales`
(useOfflineSync.ts lines 109-119). -/
structure SaleRow where
  user_id : String
  item_name : String
  amount : ℚ
  commission : ℚ
  receipt_url : Option String
  created_at : Nat
  synced : Bool
deriving DecidableEq, Repr

/-- The remote sink of one reconciliation pass: `upload` models
`supabase.storage.upload` followed by `getPublicUrl` (`none` = upload error),
`insertOk` models whether `supabase.from(sales).insert` succeeds. -/
structure RemoteSink where
  upload : OfflineSale → Option String
  insertOk : SaleRow → Bool

/-- The row `syncOfflineSales` builds for one queued sale (lines 88-119): if a
receipt file is attached its upload is attempted and a failed upload leaves
`receipt_url` null (the sale is still inserted); without a receipt no upload
happens. -/
def rowOf (sink : RemoteSink) (s : OfflineSale) : SaleRow :=
  { user_id := s.user_id
    item_name := s.item_name
    amount := s.amount
    commission := s.commission
    receipt_url := match s.receipt_file with
      | some _ => sink.upload s
      | none => none
    created_at := s.created_at
    synced := true }

/-- The per-record loop of `syncOfflineSales` (lines 87-130): each queued sale
is attempted independently; an insert failure is caught, the sale is pushed
onto `failedSales`, and the loop continues. Returns (rows inserted remotely,
`failedSales`), both in queue order. -/
def syncPass (sink : RemoteSink) : List OfflineSale → List SaleRow × List OfflineSale
  | [] => ([], [])
  | s :: rest =>
    let res := syncPass sink rest
    if sink.insertOk (rowOf sink s) then (rowOf sink s :: res.1, res.2)
    else (res.1, s :: res.2)

/-- `syncOfflineSales` (lines 77-144) as a storage transformer: the queue is
read once at the start of the run (`initialQueue`); `appendedDuringRun` models
sales that `saveOfflineSale` writes to the key between that read and the end
of the run; the final `localStorage.setItem(OFFLINE_SALES_KEY, failedSales)`
(line 133) overwrites whatever the key holds with the failed subset of the
initially-read queue. Returns the queue contents after the run. -/
def syncOfflineSales (sink : RemoteSink) (initialQueue : List OfflineSale)
    (appendedDuringRun : List OfflineSale) : List OfflineSale :=
  (syncPass sink initialQueue).2

/-- C4: within one pass over three pending records where the second is
terminally rejected, the first and third are inserted remotely (in order) and
only the second remains as failed — no abort, per-record isolation. -/
theorem syncPass_per_record_failure_isolation (sink : RemoteSink)
    (s1 s2 s3 : OfflineSale)
    (h1 : sink.insertOk (rowOf sink s1) = true)
    (h2 : sink.insertOk (rowOf sink s2) = false)
    (h3 : sink.insertOk (rowOf sink s3) = true) :
    syncPass sink [s1, s2, s3] = ([rowOf sink s1, rowOf sink s3], [s2]) := by
  simp [syncPass, h1, h2, h3]

def wSink : RemoteSink :=
  { upload := fun _ => none
    insertOk := fun r => !(r.item_name == "bad") }

def wSale1 : OfflineSale :=
  { id := "id-1", user_id := "u1", item_name := "shirt", amount := 100,
    commission := 2, receipt_file := none, created_at := 1 }

def wSale2 : OfflineSale :=
  { id := "id-2", user_id := "u1", item_name := "bad", amount := 200,
    commission := 4, receipt_file := none, created_at := 2 }

def wSale3 : OfflineSale :=
  { id := "id-3", user_id := "u1", item_name := "hat", amount := 300,
    commission := 6, receipt_file := none, created_at := 3 }

/-- Witness for C4: a concrete sink rejecting exactly the second record. -/
theorem syncPass_per_record_failure_isolation_witness :
    syncPass wSink [wSale1, wSale2, wSale3]
      = ([rowOf wSink wSale1, rowOf wSink wSale3], [wSale2]) :=
  syncPass_per_record_failure_isolation wSink wSale1 wSale2 wSale3
    (by decide) (by decide) (by decide)

/-- The queue left by a pass is exactly the initially-read sales whose insert
fails. -/
theorem syncPass_snd_eq_filter (sink : RemoteSink) (q : List OfflineSale) :
    (syncPass sink q).2 = q.filter (fun s => !(sink.insertOk (rowOf sink s))) := by
  induction q with
  | nil => rfl
  | cons s rest ih =>
    by_cases h : sink.insertOk (rowOf sink s)
    · simp [syncPass, h, ih]
    · simp [syncPass, h, ih]

/-- C10: when a run of `syncOfflineSales` completes, the stored offline queue
equals exactly the subset of the queue read at the start of the run whose
insert failed; consequently a sale appended to the queue between the initial
read and the final write — hence not in the initially-read queue — is absent
from the queue afterwards. -/
theorem syncOfflineSales_final_queue (sink : RemoteSink)
    (initialQueue appendedDuringRun : List OfflineSale) (s : OfflineSale)
    (happ : s ∈ appendedDuringRun) (hnew : s ∉ initialQueue) :
    (syncOfflineSales sink initialQueue appendedDuringRun
        = initialQueue.filter (fun r => !(sink.insertOk (rowOf sink r))))
      ∧ s ∉ syncOfflineSales sink initialQueue appendedDuringRun := by
  refine ⟨syncPass_snd_eq_filter sink initialQueue, ?_⟩
  intro hmem
  rw [show syncOfflineSales sink initialQueue appendedDuringRun = _ from
    syncPass_snd_eq_filter sink initialQueue] at hmem
  exact hnew (List.mem_of_mem_filter hmem)

/-- Witness for C10: a sale saved by `saveOfflineSale` while the pass is
mid-run (queue read as [wSale1, wSale2], wSale3 appended during the run)
is absent from the queue after the run. -/
theorem syncOfflineSales_final_queue_witness :
    ((syncOfflineSales wSink [wSale1, wSale2] [wSale3]
        = [wSale1, wSale2].filter (fun r => !(wSink.insertOk (rowOf wSink r))))
      ∧ wSale3 ∉ syncOfflineSales wSink [wSale1, wSale2] [wSale3]) :=
  syncOfflineSales_final_queue wSink [wSale1, wSale2] [wSale3] wSale3
    (by decide) (by decide)

/-- The ordering requirement the spec places on `listSales` output: newest-first by
creation instant. -/
def NewestFirst (l : List Sale) : Prop :=
  l.Pairwise (fun a b => b.created_at ≤ a.created_at)

/-- A sale of alice created at instant 1 (store key 1). -/
def saleEarly : Sale :=
  { id := 1, username := "alice", item_description := "Early", amount_cents := 100,
    commission_cents := 2, created_at := 1, photo_path := none, status := "completed" }

/-- A sale of alice created at instant 2 (store key 2). -/
def saleLate : Sale :=
  { id := 2, username := "alice", item_description := "Late", amount_cents := 200,
    commission_cents := 4, created_at := 2, photo_path := none, status := "completed" }

/-- C5 fails on the code: `getSales` returns the IndexedDB store order —
ascending key `id = Date.now()`, i.e. oldest-first — with no sorting; on a
store holding an older and a newer sale of the same owner it returns the
older one first, so the result is not sorted newest-first by `createdAt`. -/
theorem getSales_not_newest_first :
    (getSales "alice" [saleEarly, saleLate] = [saleEarly, saleLate])
      ∧ ¬ NewestFirst (getSales "alice" [saleEarly, saleLate]) := by
  constructor
  · rfl
  · intro h
    rw [show getSales "alice" [saleEarly, saleLate] = [saleEarly, saleLate] from rfl] at h
    have := List.rel_of_pairwise_cons h (List.mem_singleton_self saleLate)
    simp [saleEarly, saleLate] at this

/-- C5 amended: `listSales(owner)` returns exactly the records of the owner —
merging all sync states into one view — but in the ascending-key store
order (`id = Date.now()`, hence oldest-first), not newest-first. -/
theorem getSales_exact_owner_in_key_order (db : List Sale) (u : String)
    (hdb : db.Pairwise (fun a b => a.id < b.id)) :
    (∀ r, r ∈ getSales u db ↔ r ∈ db ∧ r.username = u)
      ∧ (getSales u db).Pairwise (fun a b => a.id < b.id) := by
  constructor
  · intro r
    simp [getSales, getSalesFromDB, List.mem_filter]
  · exact hdb.filter _

/-- Witness for C5 amended at a concrete sorted store. -/
theorem getSales_exact_owner_in_key_order_witness :
    (([saleEarly, saleLate] : List Sale).Pairwise (fun a b => a.id < b.id))
      ∧ ((∀ r, r ∈ getSales "alice" [saleEarly, saleLate]
            ↔ r ∈ [saleEarly, saleLate] ∧ r.username = "alice")
          ∧ (getSales "alice" [saleEarly, saleLate]).Pairwise (fun a b => a.id < b.id)) :=
  ⟨by decide, getSales_exact_owner_in_key_order [saleEarly, saleLate] "alice" (by decide)⟩

/-- `store.delete(id)` on the IndexedDB `sales` store. -/
def deleteId (i : Nat) (db : List Sale) : List Sale :=
  db.filter (fun r => !(r.id == i))

/-- `replaceUserSalesInDB` (part_012 lines 54-74). IndexedDB processes the
requests of one transaction in the order they were placed: the `getAll` is
placed first and reads the pre-put store; the `put` requests for the given
`sales` are placed synchronously before the `getAll` success callback runs;
the callback then places one `delete` per id the user had in the pre-put
store, so the deletes are processed last. -/
def replaceUserSalesInDB (username : String) (sales : List Sale)
    (db : List Sale) : List Sale :=
  let oldUserIds := (db.filter (fun r => r.username == username)).map Sale.id
  let afterPuts := sales.foldl (fun d s => putDB s d) db
  oldUserIds.foldl (fun d i => deleteId i d) afterPuts

/-- `deleteSalesByDateRange` (Dashboard.tsx lines 85-108): keep those sales of the owner with `saleDate < start || saleDate > end` (the end instant is already
advanced to end-of-day, making the range inclusive) and hand the kept list to
`replaceUserSalesInDB`. -/
def deleteSalesByDateRange (username : String) (startD endD : Nat)
    (db : List Sale) : List Sale :=
  let allSales := getSales username db
  let filteredSales := allSales.filter
    (fun s => decide (s.created_at < startD) || decide (endD < s.created_at))
  replaceUserSalesInDB username filteredSales db

/-- A sale of alice inside the deletion range [10, 20]. -/
def inRangeSale : Sale :=
  { id := 1, username := "alice", item_description := "In range", amount_cents := 100,
    commission_cents := 2, created_at := 15, photo_path := none, status := "completed" }

/-- A sale of alice outside the deletion range [10, 20]. -/
def outOfRangeSale : Sale :=
  { id := 2, username := "alice", item_description := "Out of range", amount_cents := 200,
    commission_cents := 4, created_at := 30, photo_path := none, status := "completed" }

/-- C7 fails on the code: deleting the range [10, 20] from a store holding one
in-range and one out-of-range sale of the owner leaves the store empty — the
out-of-range record is destroyed too, because the deletes of the transaction (every
pre-existing id the owner had) are processed after the puts that were meant
to re-save the kept records. -/
theorem deleteSalesByDateRange_erases_out_of_range :
    (20 < outOfRangeSale.created_at)
      ∧ (deleteSalesByDateRange "alice" 10 20 [inRangeSale, outOfRangeSale] = []) := by
  decide

/-- C8 fails on the code: two recording calls in the same millisecond
(`id = Date.now()` = 1000) produce records with equal ids, and saving the
second overwrites the first in the store (keyPath `id`), leaving only the
second record. -/
theorem saveSaleLocally_same_millisecond_id_collision :
    ((saveSaleLocally "alice" "First" 10 none 1000 []).1.id
        = (saveSaleLocally "alice" "Second" 20 none 1000 []).1.id)
      ∧ ((saveSaleLocally "alice" "Second" 20 none 1000
            ((saveSaleLocally "alice" "First" 10 none 1000 []).2)).2
          = [(saveSaleLocally "alice" "Second" 20 none 1000 []).1]) :=
  ⟨rfl, rfl⟩

/-- C8 amended: ids generated at distinct millisecond instants are distinct,
and two records recorded for the same owner at distinct instants both persist
in the store (starting from an empty store), neither overwriting the other;
two calls within one millisecond share `Date.now()` and collide. -/
theorem saveSaleLocally_distinct_instants_distinct_ids (u i1 i2 : String)
    (a1 a2 : ℚ) (p1 p2 : Option String) (t1 t2 : Nat) (h : t1 ≠ t2) :
    ((mkNewSale u i1 a1 p1 t1).id ≠ (mkNewSale u i2 a2 p2 t2).id)
      ∧ (mkNewSale u i1 a1 p1 t1)
          ∈ (saveSaleLocally u i2 a2 p2 t2 (saveSaleLocally u i1 a1 p1 t1 []).2).2
      ∧ (mkNewSale u i2 a2 p2 t2)
          ∈ (saveSaleLocally u i2 a2 p2 t2 (saveSaleLocally u i1 a1 p1 t1 []).2).2 := by
  refine ⟨h, ?_, ?_⟩ <;>
  · show _ ∈ putDB (mkNewSale u i2 a2 p2 t2) (putDB (mkNewSale u i1 a1 p1 t1) [])
    rcases Nat.lt_trichotomy t2 t1 with hlt | heq | hgt
    · simp [putDB, mkNewSale, hlt, Nat.not_lt_of_lt hlt]
    · exact absurd heq.symm h
    · simp [putDB, mkNewSale, hgt, Nat.not_lt_of_lt hgt, Nat.ne_of_lt hgt, (Nat.ne_of_lt hgt).symm]

/-- Witness for C8 amended at instants 1000 and 1001. -/
theorem saveSaleLocally_distinct_instants_distinct_ids_witness :
    ((1000 : Nat) ≠ 1001)
      ∧ (((mkNewSale "alice" "First" 10 none 1000).id
            ≠ (mkNewSale "alice" "Second" 20 none 1001).id)
          ∧ (mkNewSale "alice" "First" 10 none 1000)
              ∈ (saveSaleLocally "alice" "Second" 20 none 1001
                  (saveSaleLocally "alice" "First" 10 none 1000 []).2).2
          ∧ (mkNewSale "alice" "Second" 20 none 1001)
              ∈ (saveSaleLocally "alice" "Second" 20 none 1001
                  (saveSaleLocally "alice" "First" 10 none 1000 []).2).2) :=
  ⟨by decide, saveSaleLocally_distinct_instants_distinct_ids "alice" "First" "Second"
    10 20 none none 1000 1001 (by decide)⟩

/-- A local durable-storage failure (quota exceeded, medium unavailable). -/
inductive StorageErr where
  | quotaExceeded
  | mediumUnavailable
deriving DecidableEq, Repr

/-- `getSalesFromStorage` (src/src/services/api.js lines 39-47): the
localStorage read and JSON parse are wrapped in try/catch; on failure the
error is logged and `[]` is returned. The fallible raw read is supplied by
the environment as an `Except` value. -/
def getSalesFromStorage (readResult : Except StorageErr (List Sale)) : List Sale :=
  match readResult with
  | .ok sales => sales
  | .error _ => []

/-- `getOfflineSales` (useOfflineSync.ts lines 46-54): same try/catch shape,
returning `[]` on a failed read of the offline queue. -/
def getOfflineSales (readResult : Except StorageErr (List OfflineSale)) : List OfflineSale :=
  match readResult with
  | .ok sales => sales
  | .error _ => []

/-- `saveSaleLocally` with its fallible durable write (src/src/services/api.js
lines 8-37): the catch block rethrows `Error(Failed to save sale locally)`,
so a failed persist surfaces as an error value. -/
def saveSaleLocallyChecked (username item : String) (amount : ℚ)
    (photo : Option String) (now : Nat) (writeResult : Except StorageErr Unit) :
    Except String Sale :=
  match writeResult with
  | .ok _ => .ok (mkNewSale username item amount photo now)
  | .error _ => .error "Failed to save sale locally"

/-- `saveOfflineSale` (useOfflineSync.ts lines 56-75): returns
`success = false` when the localStorage write throws. -/
def saveOfflineSaleChecked (s : OfflineSale) (writeResult : Except StorageErr Unit) : Bool :=
  match writeResult with
  | .ok _ => true
  | .error _ => false

/-- C9 fails on the code for reads: a failed durable read in
`getSalesFromStorage` (and in `getOfflineSales`) is swallowed — the caller
receives the same `[]` as from a successful read of an empty store, so the
operation silently succeeds instead of surfacing a StorageError. -/
theorem getSalesFromStorage_swallows_read_failure :
    (getSalesFromStorage (.error .quotaExceeded) = getSalesFromStorage (.ok []))
      ∧ (getOfflineSales (.error .quotaExceeded) = getOfflineSales (.ok [])) :=
  ⟨rfl, rfl⟩

/-- C9 amended: a failed persist does surface — `saveSaleLocally` rejects with
an error and `saveOfflineSale` reports failure — so a failed write never
reports success with the record dropped; but a failed durable read does not
surface: `getSalesFromStorage` and `getOfflineSales` swallow the failure and
return the empty list. -/
theorem storage_error_surfacing_amended (e : StorageErr) (u item : String)
    (amount : ℚ) (photo : Option String) (now : Nat) (s : OfflineSale) :
    (saveSaleLocallyChecked u item amount photo now (.error e)
        = .error "Failed to save sale locally")
      ∧ (saveOfflineSaleChecked s (.error e) = false)
      ∧ (getSalesFromStorage (.error e) = [])
      ∧ (getOfflineSales (.error e) = []) :=
  ⟨rfl, rfl, rfl, rfl⟩

/-- A pre-existing sale of bob whose id (creation instant) is 1000. -/
def bobSale : Sale :=
  { id := 1000, username := "bob", item_description := "Bob item", amount_cents := 500,
    commission_cents := 10, created_at := 1000, photo_path := none, status := "completed" }

/-- C6 fails on the code: the stores are shared across owners and keyed only
by `id = Date.now()`, so a save invoked for alice at the instant equal to the
id of the record of bob replaces that record — an operation invoked for one
owner mutates (destroys) a record of another owner. The listing direction of the claim
does hold, see the amended theorem. -/
theorem saveSaleLocally_clobbers_other_owner :
    (bobSale ∈ getSales "bob" [bobSale])
      ∧ bobSale ∉ getSales "bob"
          ((saveSaleLocally "alice" "Dress" 25 none 1000 [bobSale]).2) := by
  constructor
  · decide
  · rw [show getSales "bob" ((saveSaleLocally "alice" "Dress" 25 none 1000 [bobSale]).2)
        = [] from rfl]
    exact List.not_mem_nil _

theorem putDB_self (s : Sale) (db : List Sale)
    (hdb : db.Pairwise (fun a b => a.id < b.id)) (hs : s ∈ db) :
    putDB s db = db := by
  induction db with
  | nil => cases hs
  | cons r rest ih =>
    rcases List.mem_cons.mp hs with heq | hmem
    · subst heq
      simp [putDB]
    · have hlt : r.id < s.id := (List.pairwise_cons.mp hdb).1 s hmem
      have h1 : ¬ s.id < r.id := Nat.lt_asymm hlt
      have h2 : ¬ s.id = r.id := (Nat.ne_of_lt hlt).symm
      simp only [putDB, if_neg h1, if_neg h2]
      rw [ih (List.pairwise_cons.mp hdb).2 hmem]

theorem foldl_putDB_self (sales db : List Sale)
    (hdb : db.Pairwise (fun a b => a.id < b.id)) (hsub : ∀ s ∈ sales, s ∈ db) :
    sales.foldl (fun d s => putDB s d) db = db := by
  induction sales with
  | nil => rfl
  | cons s rest ih =>
    have h1 : putDB s db = db := putDB_self s db hdb (hsub s (by simp))
    simp only [List.foldl_cons, h1]
    exact ih (fun x hx => hsub x (by simp [hx]))

theorem deleteId_getSales_frame (B : String) (i : Nat) (db : List Sale)
    (h : ∀ r ∈ db, r.username = B → r.id ≠ i) :
    getSales B (deleteId i db) = getSales B db := by
  simp only [getSales, getSalesFromDB, deleteId, List.filter_filter]
  refine List.filter_congr ?_
  intro x hx
  by_cases hxB : x.username = B
  · have : (x.id == i) = false := by
      simp [h x hx hxB]
    simp [hxB, this]
  · simp [hxB]

theorem foldl_deleteId_getSales_frame (B : String) (ids : List Nat) (db : List Sale)
    (h : ∀ i ∈ ids, ∀ r ∈ db, r.username = B → r.id ≠ i) :
    getSales B (ids.foldl (fun d i => deleteId i d) db) = getSales B db := by
  induction ids generalizing db with
  | nil => rfl
  | cons i rest ih =>
    simp only [List.foldl_cons]
    have step1 : getSales B (rest.foldl (fun d j => deleteId j d) (deleteId i db))
        = getSales B (deleteId i db) :=
      ih (deleteId i db) (fun j hj r hr hrB =>
        h j (List.mem_cons_of_mem i hj) r (List.mem_of_mem_filter hr) hrB)
    rw [step1, deleteId_getSales_frame B i db (h i (List.mem_cons_self i rest))]

theorem putDB_getSales_frame (B : String) (s : Sale) (db : List Sale)
    (hsB : (s.username == B) = false) (hfresh : s.id ∉ db.map Sale.id) :
    getSales B (putDB s db) = getSales B db := by
  induction db with
  | nil => simp [putDB, getSales, getSalesFromDB, hsB]
  | cons r rest ih =>
    have hne : ¬ s.id = r.id := by
      intro h
      exact hfresh (by simp [h])
    have hfresh2 : s.id ∉ rest.map Sale.id := fun h => hfresh (by simp [h])
    by_cases hlt : s.id < r.id
    · simp only [putDB, if_pos hlt]
      simp only [getSales, getSalesFromDB, List.filter_cons, hsB]
      simp
    · simp only [putDB, if_neg hlt, if_neg hne]
      have ih2 := ih hfresh2
      simp only [getSales, getSalesFromDB] at ih2 ⊢
      simp only [List.filter_cons, ih2]

/-- C6 amended: `listSales(A)` never returns a record whose ownerKey is B, and
store operations leave the records of other owners untouched as long as
record ids do not collide across owners: a save whose fresh `Date.now()` id
is not already a key of the store preserves the listing of every other owner,
and a range delete on a store with strictly ascending keys preserves the
listing of every other owner; but ids are shared across owners in one store,
so a save whose instant equals the record id of another owner replaces that
record (see the
counterexample). -/
theorem owner_partition_amended :
    (∀ (db : List Sale) (A B : String), A ≠ B →
        ∀ r ∈ getSales A db, r.username ≠ B)
      ∧ (∀ (db : List Sale) (u item : String) (amount : ℚ) (photo : Option String)
            (now : Nat) (B : String), B ≠ u → now ∉ db.map Sale.id →
            getSales B ((saveSaleLocally u item amount photo now db).2) = getSales B db)
      ∧ (∀ (db : List Sale) (u B : String) (startD endD : Nat), B ≠ u →
            db.Pairwise (fun a b => a.id < b.id) →
            getSales B (deleteSalesByDateRange u startD endD db) = getSales B db) := by
  refine ⟨?_, ?_, ?_⟩
  · intro db A B hAB r hr
    have hrA : r.username = A := by
      simp only [getSales, getSalesFromDB] at hr
      have := (List.mem_filter.mp hr).2
      simpa using this
    rw [hrA]
    exact hAB
  · intro db u item amount photo now B hBu hfresh
    have hsB : ((mkNewSale u item amount photo now).username == B) = false := by
      simp only [mkNewSale, beq_eq_false_iff_ne, ne_eq]
      exact fun h => hBu (h.symm)
    have hsid : (mkNewSale u item amount photo now).id ∉ db.map Sale.id := hfresh
    exact putDB_getSales_frame B (mkNewSale u item amount photo now) db hsB hsid
  · intro db u B startD endD hBu hdb
    show getSales B (replaceUserSalesInDB u
        ((getSales u db).filter
          (fun s => decide (s.created_at < startD) || decide (endD < s.created_at))) db)
      = getSales B db
    have hkept : ∀ s ∈ (getSales u db).filter
        (fun s => decide (s.created_at < startD) || decide (endD < s.created_at)),
        s ∈ db :=
      fun s hs => List.mem_of_mem_filter (List.mem_of_mem_filter hs)
    show getSales B
        (((db.filter (fun r => r.username == u)).map Sale.id).foldl
          (fun d i => deleteId i d)
          (((getSales u db).filter
              (fun s => decide (s.created_at < startD) || decide (endD < s.created_at))).foldl
            (fun d s => putDB s d) db))
      = getSales B db
    rw [foldl_putDB_self _ db hdb hkept]
    have hnodup : (db.map Sale.id).Nodup :=
      List.pairwise_map.mpr (hdb.imp fun h => Nat.ne_of_lt h)
    apply foldl_deleteId_getSales_frame
    intro i hi r hr hrB hri
    obtain ⟨q, hq, hqid⟩ := List.mem_map.mp hi
    have hqdb : q ∈ db := List.mem_of_mem_filter hq
    have hqu : q.username = u := by
      have := (List.mem_filter.mp hq).2
      simpa using this
    have hrq : r = q := List.inj_on_of_nodup_map hnodup hr hqdb (by rw [hri, hqid])
    exact hBu (by rw [← hrB, hrq, hqu])

/-- Witness for C6 amended: a concrete range delete for alice leaves the
listing of bob unchanged. -/
theorem owner_partition_amended_witness :
    ("bob" ≠ "alice")
      ∧ ([inRangeSale, outOfRangeSale, bobSale].Pairwise (fun a b => a.id < b.id))
      ∧ (getSales "bob" (deleteSalesByDateRange "alice" 10 20
            [inRangeSale, outOfRangeSale, bobSale])
          = getSales "bob" [inRangeSale, outOfRangeSale, bobSale]) :=
  ⟨by decide, by decide,
    owner_partition_amended.2.2 [inRangeSale, outOfRangeSale, bobSale]
      "alice" "bob" 10 20 (by decide) (by decide)⟩

end MaishSales
